import Mathlib

/-!
Shallow embedding of the traffic event store of `src/src/db.ts`
(`class TrafficDB`, backed by SQLite through the `sqlite` / `sqlite3`
node packages).

Modelling conventions:
* A row of the `traffic` table is a `TrafficRow`; the table is the list
  `Conn.rows` in insertion order.  `Conn.seq` models the SQLite
  `AUTOINCREMENT` sequence counter (largest id ever assigned), and
  `Conn.isOpen` models the node-sqlite3 handle's open flag (a handle
  object survives `close()`, but every operation scheduled on a closed
  handle is rejected with `SQLITE_MISUSE`).
* `this.db : Database | null` is `TrafficDB.db : Option Conn`.
* SQL `SELECT ... ORDER BY` is modelled with `List.insertionSort`
  (a sorted permutation, as produced by the database engine).
* Errors thrown by the class are the inductive `DBError`:
  `notInitialized` for `throw new Error("Database not initialized")`
  and `handleClosed` for the driver's `SQLITE_MISUSE: Database handle
  is closed` rejection.
* `NULL`able columns are `Option`-valued; SQL `COALESCE` is
  `Option.getD`.
* JavaScript `Date.now()` / SQLite `unixepoch()` are explicit
  parameters `nowMs` / `nowS` of `recordTraffic`.
-/

/-- One stored row of the `traffic` table (`TrafficDBRecord` in
`src/src/db.ts`): the insert in `recordTraffic` populates `site_id`,
`timestamp` (ms), the optional text columns, and the store assigns
`id` (AUTOINCREMENT) and `created_at` (seconds, `unixepoch()`). -/
structure TrafficRow where
  id : Nat
  siteId : String
  timestamp : Int
  path : Option String
  userAgent : Option String
  ipAddress : Option String
  country : Option String
  city : Option String
  referrer : Option String
  requestType : Option String
  createdAt : Int
deriving DecidableEq

/-- Caller-supplied input of `recordTraffic` (`TrafficRecord` in
`src/src/db.ts`); all attribute fields are optional, and `timestamp`
defaults to the ingestion time `Date.now()` when omitted. -/
structure TrafficRecord where
  siteId : String
  path : Option String := none
  userAgent : Option String := none
  ipAddress : Option String := none
  country : Option String := none
  city : Option String := none
  referrer : Option String := none
  requestType : Option String := none
  timestamp : Option Int := none
deriving DecidableEq

/-- Parameters of the query functions (`TrafficQuery` in
`src/src/db.ts`).  `batchSize = none` models an absent property, for
which the JS destructuring default `batchSize = 1000` fires. -/
structure TrafficQuery where
  siteId : String
  startTime : Int
  endTime : Int
  path : Option String := none
  batchSize : Option Nat := none
deriving DecidableEq

/-- The state of an open SQLite connection: the `traffic` table rows in
insertion order, the AUTOINCREMENT counter, and the handle-open flag. -/
structure Conn where
  rows : List TrafficRow
  seq : Nat
  isOpen : Bool
deriving DecidableEq

/-- The `TrafficDB` class instance: `db` is `null` before
`initialize()` and a connection handle afterwards. -/
structure TrafficDB where
  db : Option Conn
deriving DecidableEq

/-- Errors surfaced by the store:
`notInitialized` is `throw new Error("Database not initialized")`,
`handleClosed` is the node-sqlite3 `SQLITE_MISUSE: Database handle is
closed` rejection for an operation scheduled on a closed handle. -/
inductive DBError where
  | notInitialized
  | handleClosed
deriving DecidableEq

/-- The common prelude of every method body: `if (!this.db) throw new
Error("Database not initialized")`, followed by the driver rejecting
any statement on a handle that was closed. -/
def getConn (t : TrafficDB) : Except DBError Conn :=
  match t.db with
  | none => .error .notInitialized
  | some c => if c.isOpen then .ok c else .error .handleClosed

namespace TrafficDB

/-- Models `TrafficDB.initialize` of `src/src/db.ts`: opens the backing
store (here: the fresh `:memory:`-style state of a newly created
database file) and creates the `traffic` table and its indexes.  The
AUTOINCREMENT sequence starts at 0, so the first assigned id is 1. -/
def openStore (_t : TrafficDB) : TrafficDB :=
  ⟨some ⟨[], 0, true⟩⟩

/-- Models `TrafficDB.recordTraffic`: inserts one row, with `timestamp`
defaulting to `Date.now()` (`nowMs`) and `created_at` set by the
`unixepoch()` column default (`nowS`).  The store assigns the next
AUTOINCREMENT id `seq + 1`. -/
def recordTraffic (t : TrafficDB) (r : TrafficRecord) (nowMs nowS : Int) :
    Except DBError TrafficDB :=
  match getConn t with
  | .error err => .error err
  | .ok c =>
  let newId := c.seq + 1
  .ok ⟨some ⟨c.rows ++
    [⟨newId, r.siteId, r.timestamp.getD nowMs, r.path, r.userAgent,
      r.ipAddress, r.country, r.city, r.referrer, r.requestType, nowS⟩],
    newId, true⟩⟩

/-- Models `TrafficDB.close`: `if (this.db) await this.db.close()`.  The field
`this.db` is never reset to `null`, so a second `close()` schedules a
close on the already-closed handle, which node-sqlite3 rejects. -/
def close (t : TrafficDB) : Except DBError TrafficDB :=
  match t.db with
  | none => .ok t
  | some c =>
    if c.isOpen then .ok ⟨some ⟨c.rows, c.seq, false⟩⟩
    else .error .handleClosed

end TrafficDB

/-- The `WHERE` clause shared by the stream reader and the aggregation
queries: `site_id = ? AND timestamp >= ? AND timestamp <= ?`. -/
def matchesQuery (siteId : String) (startTime endTime : Int)
    (r : TrafficRow) : Bool :=
  r.siteId == siteId && decide (startTime ≤ r.timestamp) &&
    decide (r.timestamp ≤ endTime)

/-- The `ORDER BY id ASC` comparison. -/
def rowIdLe (a b : TrafficRow) : Prop := a.id ≤ b.id

/-- Strict id order (the store invariant on the table). -/
def rowIdLt (a b : TrafficRow) : Prop := a.id < b.id

instance : DecidableRel rowIdLe := fun a b =>
  inferInstanceAs (Decidable (a.id ≤ b.id))

instance : DecidableRel rowIdLt := fun a b =>
  inferInstanceAs (Decidable (a.id < b.id))

instance : IsTotal TrafficRow rowIdLe := ⟨fun a b => Nat.le_total a.id b.id⟩

instance : IsTrans TrafficRow rowIdLe := ⟨fun _ _ _ h h' => Nat.le_trans h h'⟩

/-- One iteration of the cursor loop of `queryTrafficStream`:
`SELECT * FROM traffic WHERE site_id = ? AND timestamp >= ? AND
timestamp <= ? AND id > ? ORDER BY id ASC LIMIT ?`. -/
def fetchBatch (rows : List TrafficRow) (siteId : String)
    (startTime endTime : Int) (lastId : Nat) (batchSize : Nat) :
    List TrafficRow :=
  (List.insertionSort rowIdLe
    (rows.filter fun r =>
      matchesQuery siteId startTime endTime r && decide (lastId < r.id))).take
    batchSize

/-- The `while (true)` cursor loop of `queryTrafficStream`: fetch a
batch; stop on an empty batch; otherwise yield it and continue with
`lastId` advanced to the id of the batch's final record.  `fuel` is an
upper bound on the number of iterations (the loop in the source
terminates because each nonempty batch strictly advances the cursor;
the callers below pass fuel `rows.length + 1`, which is shown
sufficient in the theorems). -/
def streamAux (rows : List TrafficRow) (siteId : String)
    (startTime endTime : Int) (batchSize : Nat) :
    Nat → Nat → List TrafficRow
  | 0, _ => []
  | fuel + 1, lastId =>
    let batch := fetchBatch rows siteId startTime endTime lastId batchSize
    if h : batch = [] then []
    else
      batch ++ streamAux rows siteId startTime endTime batchSize fuel
        (batch.getLast h).id

namespace TrafficDB

/-- Models `TrafficDB.queryTrafficStream`, materialized: the list of all
records the generator yields (the generator is a lazy pull-based
iterator; its complete output sequence is this list). -/
def queryTrafficStream (t : TrafficDB) (q : TrafficQuery) :
    Except DBError (List TrafficRow) :=
  match getConn t with
  | .error err => .error err
  | .ok c =>
  .ok (streamAux c.rows q.siteId q.startTime q.endTime
    (q.batchSize.getD 1000) (c.rows.length + 1) 0)

/-- Models `TrafficDB.queryTraffic`: the eager wrapper collecting the whole
stream into a list. -/
def queryTraffic (t : TrafficDB) (q : TrafficQuery) :
    Except DBError (List TrafficRow) :=
  t.queryTrafficStream q

end TrafficDB

/-!
Calendar arithmetic, modelling SQLite's `date(t, 'unixepoch')`.

`date(t,'unixepoch')` renders the proleptic Gregorian calendar date of
the day `⌊t / 86400⌋` (days since 1970-01-01) as a `YYYY-MM-DD`
string.  The day-of-epoch number is `epochDay`; the calendar date of a
day number is obtained by stepping one day at a time from 1970-01-01
(`ymdOfDay`), which is the specification of the Gregorian calendar;
`dateString` renders it with zero-padded fields exactly as SQLite's
`%04d-%02d-%02d`.  The recursive date CTE of `getDailyViews` steps
whole days and compares dates, so it is modelled on day numbers.
-/

/-- Day number (days since the epoch) of a unixepoch second count:
`⌊t / 86400⌋`, floor division as SQLite computes it. -/
def epochDay (t : Int) : Int := t.fdiv 86400

/-- A Gregorian calendar date. -/
structure Ymd where
  y : Int
  m : Nat
  d : Nat
deriving DecidableEq

/-- Gregorian leap-year rule (as implemented by SQLite's
`computeYMD`). -/
def isLeap (y : Int) : Bool :=
  (y % 4 == 0 && y % 100 != 0) || y % 400 == 0

/-- Number of days of month `m` of year `y`. -/
def daysInMonth (y : Int) (m : Nat) : Nat :=
  if m == 2 then (if isLeap y then 29 else 28)
  else if m == 4 || m == 6 || m == 9 || m == 11 then 30
  else 31

/-- The calendar date one day later. -/
def succYmd (x : Ymd) : Ymd :=
  if x.d < daysInMonth x.y x.m then ⟨x.y, x.m, x.d + 1⟩
  else if x.m < 12 then ⟨x.y, x.m + 1, 1⟩
  else ⟨x.y + 1, 1, 1⟩

/-- The calendar date one day earlier. -/
def predYmd (x : Ymd) : Ymd :=
  if 1 < x.d then ⟨x.y, x.m, x.d - 1⟩
  else if 1 < x.m then ⟨x.y, x.m - 1, daysInMonth x.y (x.m - 1)⟩
  else ⟨x.y - 1, 12, 31⟩

/-- The `n`-fold day successor. -/
def succIter : Nat → Ymd → Ymd
  | 0, x => x
  | n + 1, x => succYmd (succIter n x)

/-- The `n`-fold day predecessor. -/
def predIter : Nat → Ymd → Ymd
  | 0, x => x
  | n + 1, x => predYmd (predIter n x)

/-- The epoch date 1970-01-01, the date of day number 0. -/
def epochYmd : Ymd := ⟨1970, 1, 1⟩

/-- The calendar date of a day-of-epoch number. -/
def ymdOfDay (z : Int) : Ymd :=
  if 0 ≤ z then succIter z.toNat epochYmd
  else predIter (-z).toNat epochYmd

/-- The decimal digit character of `n < 10`. -/
def digitChar (n : Nat) : Char := Char.ofNat (48 + n)

/-- Two-digit zero-padded rendering (`%02d`) of `n < 100`. -/
def pad2Chars (n : Nat) : List Char :=
  [digitChar (n / 10), digitChar (n % 10)]

/-- Four-digit zero-padded rendering (`%04d`) of `n < 10000`. -/
def pad4Chars (n : Nat) : List Char :=
  [digitChar (n / 1000), digitChar (n / 100 % 10),
   digitChar (n / 10 % 10), digitChar (n % 10)]

/-- The `YYYY-MM-DD` character rendering of a calendar date. -/
def ymdChars (x : Ymd) : List Char :=
  pad4Chars x.y.toNat ++ '-' :: (pad2Chars x.m ++ '-' :: pad2Chars x.d)

/-- Models `date(z * 86400, 'unixepoch')`: the `YYYY-MM-DD` string of day
number `z`. -/
def dateString (z : Int) : String := ⟨ymdChars (ymdOfDay z)⟩

/-- The date spine of the recursive CTE
`dates(date) AS (SELECT date(?, 'unixepoch') UNION ALL SELECT
date(date, '+1 day') FROM dates WHERE date < date(?, 'unixepoch'))`,
on day numbers: the anchor day `d0`, then successive days while the
current day is before `d1`. -/
def dateSpine (d0 d1 : Int) : List Int :=
  d0 :: (List.range (d1 - d0).toNat).map (fun i : Nat => d0 + 1 + (i : Int))

/-- One output row of the daily-views queries. -/
structure DailyViews where
  date : String
  count : Nat
deriving DecidableEq

/-- The `LEFT JOIN ... GROUP BY dates.date` count of `getDailyViews`
for one spine day: the number of the site's rows whose `created_at`
(ingestion time, seconds) falls on that calendar day.  Note the join
condition carries no `timestamp` range filter. -/
def dailyCount (rows : List TrafficRow) (siteId : String) (d : Int) : Nat :=
  (rows.filter fun r =>
    r.siteId == siteId && epochDay r.createdAt == d).length

/-- The JS truthiness test `path ?` of `getDailyViewsByPath`'s template
string: the extra join condition `AND traffic.path = ?` is only
emitted when `path` is defined and not the empty string. -/
def pathCond (path : Option String) (r : TrafficRow) : Bool :=
  match path with
  | none => true
  | some p => if p == "" then true else r.path == some p

namespace TrafficDB

/-- Models `TrafficDB.getDailyViews`: generates the date spine from
`Math.floor(startTime / 1000)` and `Math.floor(endTime / 1000)`, and
left-joins per-day counts of the site's rows grouped by the calendar
day of `created_at`, ordered by date ascending. -/
def getDailyViews (t : TrafficDB) (siteId : String)
    (startTime endTime : Int) : Except DBError (List DailyViews) :=
  match getConn t with
  | .error err => .error err
  | .ok c =>
  let d0 := epochDay (startTime.fdiv 1000)
  let d1 := epochDay (endTime.fdiv 1000)
  .ok ((dateSpine d0 d1).map fun d =>
    ⟨dateString d, dailyCount c.rows siteId d⟩)

/-- Models `TrafficDB.getDailyViewsByPath`: identical to `getDailyViews`
except that a truthy `path` adds `AND traffic.path = ?` to the join
condition. -/
def getDailyViewsByPath (t : TrafficDB) (siteId : String)
    (startTime endTime : Int) (path : Option String) :
    Except DBError (List DailyViews) :=
  match getConn t with
  | .error err => .error err
  | .ok c =>
  let d0 := epochDay (startTime.fdiv 1000)
  let d1 := epochDay (endTime.fdiv 1000)
  .ok ((dateSpine d0 d1).map fun d =>
    ⟨dateString d,
     (c.rows.filter fun r =>
       r.siteId == siteId && epochDay r.createdAt == d &&
         pathCond path r).length⟩)

end TrafficDB

/-!  Grouped counts and breakdown reports. -/

/-- Models `COALESCE(referrer, '(direct)')`. -/
def coalesceReferrer (r : TrafficRow) : String := r.referrer.getD "(direct)"

/-- Models `COALESCE(path, '(no path)')`. -/
def coalescePath (r : TrafficRow) : String := r.path.getD "(no path)"

/-- Models `COALESCE(country, '(unknown)')`. -/
def coalesceCountry (r : TrafficRow) : String := r.country.getD "(unknown)"

/-- Models `GROUP BY` with `COUNT(*)` over a list of (already coalesced) key
values: one `(key, count)` pair per distinct key.  SQLite does not
specify the order in which groups are produced; the model lists each
distinct key once, with its number of occurrences. -/
def keyCounts (keys : List String) : List (String × Nat) :=
  keys.dedup.map fun k => (k, keys.count k)

/-- One output row of the breakdown queries; `key` stands for the
respective grouped column (`referrer`, `path`, `country`). -/
structure BreakdownRow where
  key : String
  count : Nat
  percentage : ℚ
deriving DecidableEq

/-- The `ORDER BY count DESC` comparison on breakdown rows. -/
def rowCountGe (a b : BreakdownRow) : Prop := b.count ≤ a.count

instance : DecidableRel rowCountGe := fun a b =>
  inferInstanceAs (Decidable (b.count ≤ a.count))

instance : IsTotal BreakdownRow rowCountGe :=
  ⟨fun a b => Nat.le_total b.count a.count⟩

instance : IsTrans BreakdownRow rowCountGe :=
  ⟨fun _ _ _ h h' => Nat.le_trans h' h⟩

/-- Models `ROUND(x, 2)`: rounding to two decimal places (SQLite rounds half
away from zero; all rounded values here are nonnegative, for which
that is `round`, i.e. half up).  The SQL computes on 8-byte floats;
the model computes on exact rationals. -/
def round2 (q : ℚ) : ℚ := (round (q * 100) : ℤ) / 100

/-- The shared shape of the three breakdown queries: group the
coalesced key values, take `total` as `SUM(count)` over the groups,
attach `percentage = ROUND(count / total * 100, 2)`, and order by
count descending.  With no matching rows the group list is empty and
the cross join with `total_count` yields no output rows. -/
def breakdownRows (keys : List String) : List BreakdownRow :=
  let groups := keyCounts keys
  let total : ℚ := ((groups.map fun p => p.2).sum : ℕ)
  List.insertionSort rowCountGe
    (groups.map fun p => ⟨p.1, p.2, round2 ((p.2 : ℚ) / total * 100)⟩)

namespace TrafficDB

/-- Models `TrafficDB.getReferrerBreakdown`. -/
def getReferrerBreakdown (t : TrafficDB) (siteId : String)
    (startTime endTime : Int) : Except DBError (List BreakdownRow) :=
  match getConn t with
  | .error err => .error err
  | .ok c =>
  .ok (breakdownRows
    ((c.rows.filter (matchesQuery siteId startTime endTime)).map
      coalesceReferrer))

/-- Models `TrafficDB.getPathsBreakdown`. -/
def getPathsBreakdown (t : TrafficDB) (siteId : String)
    (startTime endTime : Int) : Except DBError (List BreakdownRow) :=
  match getConn t with
  | .error err => .error err
  | .ok c =>
  .ok (breakdownRows
    ((c.rows.filter (matchesQuery siteId startTime endTime)).map
      coalescePath))

/-- Models `TrafficDB.getCountryBreakdown`. -/
def getCountryBreakdown (t : TrafficDB) (siteId : String)
    (startTime endTime : Int) : Except DBError (List BreakdownRow) :=
  match getConn t with
  | .error err => .error err
  | .ok c =>
  .ok (breakdownRows
    ((c.rows.filter (matchesQuery siteId startTime endTime)).map
      coalesceCountry))

end TrafficDB

/-- One entry of `top_referrers`. -/
structure ReferrerCount where
  referrer : String
  count : Nat
deriving DecidableEq

/-- The `ORDER BY count DESC` comparison on referrer counts. -/
def refCountGe (a b : ReferrerCount) : Prop := b.count ≤ a.count

instance : DecidableRel refCountGe := fun a b =>
  inferInstanceAs (Decidable (b.count ≤ a.count))

instance : IsTotal ReferrerCount refCountGe :=
  ⟨fun a b => Nat.le_total b.count a.count⟩

instance : IsTrans ReferrerCount refCountGe :=
  ⟨fun _ _ _ h h' => Nat.le_trans h' h⟩

/-- The `top_referrers` subquery of `getTrafficStats`: group the
coalesced referrers of the matching rows, order by count descending,
`LIMIT 10`. -/
def topReferrers (matching : List TrafficRow) : List ReferrerCount :=
  (List.insertionSort refCountGe
    ((keyCounts (matching.map coalesceReferrer)).map fun p =>
      ⟨p.1, p.2⟩)).take 10

/-- The result record of `getTrafficStats` (`TrafficStats` in
`src/src/db.ts`). -/
structure TrafficStats where
  total_requests : Nat
  unique_visitors : Nat
  total_website_requests : Nat
  total_server_requests : Nat
  top_referrers : List ReferrerCount
deriving DecidableEq

namespace TrafficDB

/-- Models `TrafficDB.getTrafficStats`: `COUNT(*)`,
`COUNT(DISTINCT ip_address)` (which ignores NULLs),
`COUNT(CASE WHEN request_type = 'static' OR request_type IS NULL THEN 1 END)`,
`COUNT(CASE WHEN request_type = 'api' THEN 1 END)`, and the
`top_referrers` subquery, all over the site/time-range matching rows. -/
def getTrafficStats (t : TrafficDB) (siteId : String)
    (startTime endTime : Int) : Except DBError TrafficStats :=
  match getConn t with
  | .error err => .error err
  | .ok c =>
  let m := c.rows.filter (matchesQuery siteId startTime endTime)
  .ok
    { total_requests := m.length
      unique_visitors := (m.filterMap TrafficRow.ipAddress).dedup.length
      total_website_requests :=
        (m.filter fun r =>
          r.requestType == some "static" || r.requestType == none).length
      total_server_requests :=
        (m.filter fun r => r.requestType == some "api").length
      top_referrers := topReferrers m }

end TrafficDB

/-- The `ORDER BY id DESC` comparison. -/
def rowIdGe (a b : TrafficRow) : Prop := b.id ≤ a.id

instance : DecidableRel rowIdGe := fun a b =>
  inferInstanceAs (Decidable (b.id ≤ a.id))

instance : IsTotal TrafficRow rowIdGe :=
  ⟨fun a b => Nat.le_total b.id a.id⟩

instance : IsTrans TrafficRow rowIdGe :=
  ⟨fun _ _ _ h h' => Nat.le_trans h' h⟩

namespace TrafficDB

/-- Models `TrafficDB.getLatestTraffic`: the most recent 100 rows (optionally
of one site), descending by id. -/
def getLatestTraffic (t : TrafficDB) (siteId : Option String) :
    Except DBError (List TrafficRow) :=
  match getConn t with
  | .error err => .error err
  | .ok c =>
  .ok ((List.insertionSort rowIdGe
    (c.rows.filter fun r =>
      match siteId with
      | none => true
      | some s => r.siteId == s)).take 100)

end TrafficDB

/-!  Operation sequences, for the store-lifetime invariants. -/

/-- One public store operation issued after `initialize()` (the
re-initializing operation itself is the starting point
`TrafficDB.openStore`). -/
inductive Op where
  | record (r : TrafficRecord) (nowMs nowS : Int)
  | query (q : TrafficQuery)
  | dailyViews (siteId : String) (startTime endTime : Int)
  | dailyViewsByPath (siteId : String) (startTime endTime : Int)
      (path : Option String)
  | stats (siteId : String) (startTime endTime : Int)
  | referrers (siteId : String) (startTime endTime : Int)
  | paths (siteId : String) (startTime endTime : Int)
  | countries (siteId : String) (startTime endTime : Int)
  | latest (siteId : Option String)
  | closeOp
deriving DecidableEq

/-- State evolution of one operation.  The read-only queries issue only
`SELECT`s and leave the store unchanged; `record` appends a row on
success; a failed operation leaves the state as it was. -/
def runOp (t : TrafficDB) : Op → TrafficDB
  | .record r nowMs nowS =>
    match t.recordTraffic r nowMs nowS with
    | .ok t' => t'
    | .error _ => t
  | .closeOp =>
    match t.close with
    | .ok t' => t'
    | .error _ => t
  | .query _ => t
  | .dailyViews _ _ _ => t
  | .dailyViewsByPath _ _ _ _ => t
  | .stats _ _ _ => t
  | .referrers _ _ _ => t
  | .paths _ _ _ => t
  | .countries _ _ _ => t
  | .latest _ => t

/-- The rows currently stored (empty when never initialized). -/
def rowsOf (t : TrafficDB) : List TrafficRow :=
  match t.db with
  | none => []
  | some c => c.rows

/-!  ## Claim C7: operations before `initialize()` -/

/-- C7: Every store operation other than `initialize` and `close`
— `recordTraffic`, `queryTrafficStream`, `queryTraffic`, and all the
aggregation queries — fails with the distinguishable
`DBError.notInitialized` error when called before `initialize()`
(`this.db = null`), and no such failed call changes the store's
state. -/
theorem uninitialized_ops_fail (r : TrafficRecord) (nowMs nowS : Int)
    (q : TrafficQuery) (site : String) (s e : Int) (p os : Option String) :
    TrafficDB.recordTraffic ⟨none⟩ r nowMs nowS = .error .notInitialized ∧
    TrafficDB.queryTrafficStream ⟨none⟩ q = .error .notInitialized ∧
    TrafficDB.queryTraffic ⟨none⟩ q = .error .notInitialized ∧
    TrafficDB.getDailyViews ⟨none⟩ site s e = .error .notInitialized ∧
    TrafficDB.getDailyViewsByPath ⟨none⟩ site s e p =
      .error .notInitialized ∧
    TrafficDB.getTrafficStats ⟨none⟩ site s e = .error .notInitialized ∧
    TrafficDB.getReferrerBreakdown ⟨none⟩ site s e =
      .error .notInitialized ∧
    TrafficDB.getPathsBreakdown ⟨none⟩ site s e = .error .notInitialized ∧
    TrafficDB.getCountryBreakdown ⟨none⟩ site s e =
      .error .notInitialized ∧
    TrafficDB.getLatestTraffic ⟨none⟩ os = .error .notInitialized ∧
    (∀ op : Op, runOp ⟨none⟩ op = ⟨none⟩) := by
  refine ⟨rfl, rfl, rfl, rfl, rfl, rfl, rfl, rfl, rfl, rfl, ?_⟩
  intro op
  cases op <;> rfl

/-!  ## Claim C8: `close()` -/

/-- C8 counterexample: After `initialize()` and one successful
`close()`, a second `close()` does *not* succeed: `this.db` still
holds the (now closed) handle, so `this.db.close()` is scheduled on a
closed handle and rejected by the driver.  This refutes the clause
"after a first successful close(), every further close() call also
succeeds without error". -/
theorem close_after_close_fails :
    (TrafficDB.openStore ⟨none⟩).close = .ok ⟨some ⟨[], 0, false⟩⟩ ∧
    TrafficDB.close ⟨some ⟨[], 0, false⟩⟩ = .error .handleClosed :=
  ⟨rfl, rfl⟩

/-- C8 amended: `close()` is safe to call when the store was
never opened (a no-op that succeeds), and a `close()` of an open store
succeeds (marking the handle closed while leaving `this.db` set); but
a further `close()` after a successful `close()` fails with the
driver's misuse error, because `this.db` is never reset to `null`. -/
theorem close_spec :
    (TrafficDB.close ⟨none⟩ = .ok ⟨none⟩) ∧
    (∀ c : Conn, c.isOpen = true →
      TrafficDB.close ⟨some c⟩ = .ok ⟨some ⟨c.rows, c.seq, false⟩⟩) ∧
    (∀ c : Conn, c.isOpen = false →
      TrafficDB.close ⟨some c⟩ = .error .handleClosed) := by
  refine ⟨rfl, fun c h => ?_, fun c h => ?_⟩
  · simp [TrafficDB.close, h]
  · simp [TrafficDB.close, h]

/-- Witness for `close_spec` at a concrete open and a concrete closed
handle. -/
theorem close_spec_witness :
    TrafficDB.close ⟨some ⟨[], 0, true⟩⟩ = .ok ⟨some ⟨[], 0, false⟩⟩ ∧
    TrafficDB.close ⟨some ⟨[], 0, false⟩⟩ = .error .handleClosed :=
  ⟨close_spec.2.1 ⟨[], 0, true⟩ rfl, close_spec.2.2 ⟨[], 0, false⟩ rfl⟩

/-!  ## Claim C10: the path filter of `getDailyViewsByPath` -/

/-- C10: With an absent (`none`) or empty-string `path`,
`getDailyViewsByPath` emits no `AND traffic.path = ?` condition and
returns exactly the rows of `getDailyViews`; with a non-empty `path`
the per-day count is additionally restricted to rows with that exact
path. -/
theorem getDailyViewsByPath_filter (t : TrafficDB) (site : String)
    (s e : Int) :
    (t.getDailyViewsByPath site s e none = t.getDailyViews site s e) ∧
    (t.getDailyViewsByPath site s e (some "") =
      t.getDailyViews site s e) ∧
    (∀ p : String, p ≠ "" →
      t.getDailyViewsByPath site s e (some p) =
        Except.map
          (fun c =>
            (dateSpine (epochDay (s.fdiv 1000))
                (epochDay (e.fdiv 1000))).map fun d =>
              ⟨dateString d,
               (c.rows.filter fun r =>
                 r.siteId == site && epochDay r.createdAt == d &&
                   r.path == some p).length⟩)
          (getConn t)) := by
  unfold TrafficDB.getDailyViewsByPath TrafficDB.getDailyViews
  cases hc : getConn t with
  | error err =>
    refine ⟨rfl, rfl, fun p hp => ?_⟩
    simp [Except.map]
  | ok c =>
    refine ⟨?_, ?_, fun p hp => ?_⟩
    · simp only [Except.ok.injEq]
      refine List.map_congr_left fun d _ => ?_
      simp [pathCond, dailyCount]
    · simp only [Except.ok.injEq]
      refine List.map_congr_left fun d _ => ?_
      simp [pathCond, dailyCount]
    · simp only [Except.map, Except.ok.injEq]
      refine List.map_congr_left fun d _ => ?_
      simp only [DailyViews.mk.injEq, true_and]
      refine congrArg _ (List.filter_congr fun r _ => ?_)
      simp [pathCond, hp]

/-- Witness for `getDailyViewsByPath_filter` with the concrete
non-empty path `/blog` on a one-row store. -/
theorem getDailyViewsByPath_filter_witness :
    ("/blog" : String) ≠ "" ∧
    TrafficDB.getDailyViewsByPath
        ⟨some ⟨[⟨1, "site1", 0, some "/blog", none, none, none, none,
                 none, none, 0⟩], 1, true⟩⟩ "site1" 0 0 (some "/blog") =
      Except.map
        (fun c =>
          (dateSpine (epochDay ((0 : Int).fdiv 1000))
              (epochDay ((0 : Int).fdiv 1000))).map fun d =>
            ⟨dateString d,
             (c.rows.filter fun r =>
               r.siteId == "site1" && epochDay r.createdAt == d &&
                 r.path == some "/blog").length⟩)
        (getConn ⟨some ⟨[⟨1, "site1", 0, some "/blog", none, none, none,
                          none, none, none, 0⟩], 1, true⟩⟩) :=
  ⟨by decide,
   (getDailyViewsByPath_filter _ "site1" 0 0).2.2 "/blog" (by decide)⟩

/-!  ## Claim C9: daily views ignore the `timestamp` range filter -/

/-- C9: `getDailyViews` and `getDailyViewsByPath` apply no
`timestamp` range filter: rewriting every event's `timestamp`
arbitrarily (`f`) leaves the result unchanged, and `startTime` /
`endTime` influence the result only through the spine endpoint day
numbers `date(floor(startTime/1000))` and `date(floor(endTime/1000))`
(replacing them by any `s'`, `e'` with the same endpoint days changes
nothing). -/
theorem dailyViews_ignore_timestamp_range (rows : List TrafficRow)
    (seq : Nat) (f : TrafficRow → Int) (site : String) (p : Option String)
    (s e s' e' : Int)
    (hs : epochDay (s.fdiv 1000) = epochDay (s'.fdiv 1000))
    (he : epochDay (e.fdiv 1000) = epochDay (e'.fdiv 1000)) :
    TrafficDB.getDailyViews
        ⟨some ⟨rows.map fun r => { r with timestamp := f r }, seq, true⟩⟩
        site s e =
      TrafficDB.getDailyViews ⟨some ⟨rows, seq, true⟩⟩ site s' e' ∧
    TrafficDB.getDailyViewsByPath
        ⟨some ⟨rows.map fun r => { r with timestamp := f r }, seq, true⟩⟩
        site s e p =
      TrafficDB.getDailyViewsByPath ⟨some ⟨rows, seq, true⟩⟩ site s' e'
        p := by
  constructor
  · simp only [TrafficDB.getDailyViews, getConn, if_pos, hs, he,
      Except.ok.injEq]
    refine List.map_congr_left fun d _ => ?_
    simp only [DailyViews.mk.injEq, dailyCount, true_and]
    rw [List.filter_map, List.length_map]
    exact congrArg _ (List.filter_congr fun r _ => rfl)
  · simp only [TrafficDB.getDailyViewsByPath, getConn, if_pos, hs, he,
      Except.ok.injEq]
    refine List.map_congr_left fun d _ => ?_
    simp only [DailyViews.mk.injEq, true_and]
    rw [List.filter_map, List.length_map]
    exact congrArg _ (List.filter_congr fun r _ => rfl)

/-- Witness for `dailyViews_ignore_timestamp_range`: an event with
`timestamp` far outside the queried range is still counted (the
timestamp of the single stored event is rewritten from 0 to
999999999, and the reports are unchanged). -/
theorem dailyViews_ignore_timestamp_range_witness :
    epochDay ((86400000 : Int).fdiv 1000) =
      epochDay ((86400500 : Int).fdiv 1000) ∧
    TrafficDB.getDailyViews
        ⟨some ⟨([⟨1, "site1", 0, none, none, none, none, none, none,
                  none, 90000⟩] : List TrafficRow).map fun r =>
                  { r with timestamp := (999999999 : Int) },
          1, true⟩⟩ "site1" 86400000 86400000 =
      TrafficDB.getDailyViews
        ⟨some ⟨[⟨1, "site1", 0, none, none, none, none, none, none,
                 none, 90000⟩], 1, true⟩⟩ "site1" 86400000 86400500 := by
  refine ⟨by decide, ?_⟩
  exact (dailyViews_ignore_timestamp_range
    [⟨1, "site1", 0, none, none, none, none, none, none, none, 90000⟩]
    1 (fun _ => (999999999 : Int)) "site1" none 86400000 86400000
    86400000 86400500 (by decide) (by decide)).1

/-!  ## Claim C5: summary stats -/

/-- C5: `getTrafficStats` reports `total_requests` as the number
of matching events, `unique_visitors` as the number of distinct
non-null `ipAddress` values, `total_website_requests` counting the
events whose `requestType` is `"static"` or null (so an event with
`requestType` omitted is counted), and `total_server_requests`
counting the events whose `requestType` is `"api"`; and whenever every
matching event has `requestType` null, `"static"` or `"api"`,
`total_requests = total_website_requests + total_server_requests`. -/
theorem getTrafficStats_spec (rows : List TrafficRow) (seq : Nat)
    (site : String) (s e : Int) :
    TrafficDB.getTrafficStats ⟨some ⟨rows, seq, true⟩⟩ site s e =
      .ok
        { total_requests := (rows.filter (matchesQuery site s e)).length
          unique_visitors :=
            ((rows.filter (matchesQuery site s e)).filterMap
              TrafficRow.ipAddress).dedup.length
          total_website_requests :=
            ((rows.filter (matchesQuery site s e)).filter fun r =>
              r.requestType == some "static" ||
                r.requestType == none).length
          total_server_requests :=
            ((rows.filter (matchesQuery site s e)).filter fun r =>
              r.requestType == some "api").length
          top_referrers :=
            topReferrers (rows.filter (matchesQuery site s e)) } ∧
    ((∀ r ∈ rows.filter (matchesQuery site s e),
        r.requestType = none ∨ r.requestType = some "static" ∨
          r.requestType = some "api") →
      (rows.filter (matchesQuery site s e)).length =
        ((rows.filter (matchesQuery site s e)).filter fun r =>
          r.requestType == some "static" ||
            r.requestType == none).length +
        ((rows.filter (matchesQuery site s e)).filter fun r =>
          r.requestType == some "api").length) := by
  refine ⟨rfl, fun h => ?_⟩
  rw [List.length_eq_length_filter_add
    (fun r => r.requestType == some "static" || r.requestType == none)]
  refine congrArg _ (congrArg _ (List.filter_congr fun r hr => ?_))
  rcases h r hr with h' | h' | h' <;> simp [h']

/-- Witness for `getTrafficStats_spec`: the spec's scenario — one
event with `requestType` omitted and one with `requestType = "api"` in
the same site and window — yields `total_website_requests = 1`,
`total_server_requests = 1`, `total_requests = 2 = 1 + 1`. -/
theorem getTrafficStats_spec_witness :
    TrafficDB.getTrafficStats
        ⟨some ⟨[⟨1, "site1", 5, none, none, some "1.2.3.4", none, none,
                 none, none, 100⟩,
                ⟨2, "site1", 6, none, none, some "1.2.3.4", none, none,
                 none, some "api", 101⟩], 2, true⟩⟩ "site1" 0 10 =
      .ok
        { total_requests := 2
          unique_visitors := 1
          total_website_requests := 1
          total_server_requests := 1
          top_referrers := [⟨"(direct)", 2⟩] } ∧
    (2 : Nat) = 1 + 1 := by
  have h := getTrafficStats_spec
    [⟨1, "site1", 5, none, none, some "1.2.3.4", none, none, none,
      none, 100⟩,
     ⟨2, "site1", 6, none, none, some "1.2.3.4", none, none, none,
      some "api", 101⟩] 2 "site1" 0 10
  refine ⟨?_, rfl⟩
  have h2 := h.1
  rw [h2]
  exact congrArg Except.ok (by decide)

/-!  ## Claim C6: null keys are coalesced to fixed placeholders -/

/-- Any key occurring among the (coalesced) values is reported by
`breakdownRows` with its occurrence count. -/
theorem breakdownRows_mem_of_mem (keys : List String) (k : String)
    (hk : k ∈ keys) :
    ∃ row ∈ breakdownRows keys, row.key = k ∧
      row.count = keys.count k := by
  have hd : k ∈ keys.dedup := List.mem_dedup.mpr hk
  have hg : (k, keys.count k) ∈ keyCounts keys :=
    List.mem_map.mpr ⟨k, hd, rfl⟩
  refine ⟨⟨k, keys.count k,
    round2 ((keys.count k : ℚ) /
      (((keyCounts keys).map fun p => p.2).sum : ℕ) * 100)⟩, ?_, rfl, rfl⟩
  unfold breakdownRows
  exact (List.perm_insertionSort _ _).mem_iff.mpr
    (List.mem_map.mpr ⟨(k, keys.count k), hg, rfl⟩)

/-- C6: An event with null `referrer` is reported under
`"(direct)"` by `getReferrerBreakdown`, one with null `path` under
`"(no path)"` by `getPathsBreakdown`, one with null `country` under
`"(unknown)"` by `getCountryBreakdown` — each with the count of the
coalesced group, which includes the null event — and every entry of
`getTrafficStats`'s `top_referrers` is a group of the same
`"(direct)"`-coalesced referrer values. -/
theorem coalesce_null_keys (rows : List TrafficRow) (seq : Nat)
    (site : String) (s e : Int)
    (h1 : ∃ r ∈ rows.filter (matchesQuery site s e), r.referrer = none)
    (h2 : ∃ r ∈ rows.filter (matchesQuery site s e), r.path = none)
    (h3 : ∃ r ∈ rows.filter (matchesQuery site s e), r.country = none) :
    (∃ out, TrafficDB.getReferrerBreakdown ⟨some ⟨rows, seq, true⟩⟩
        site s e = .ok out ∧
      ∃ row ∈ out, row.key = "(direct)" ∧
        row.count = ((rows.filter (matchesQuery site s e)).map
          coalesceReferrer).count "(direct)" ∧ 0 < row.count) ∧
    (∃ out, TrafficDB.getPathsBreakdown ⟨some ⟨rows, seq, true⟩⟩
        site s e = .ok out ∧
      ∃ row ∈ out, row.key = "(no path)" ∧
        row.count = ((rows.filter (matchesQuery site s e)).map
          coalescePath).count "(no path)" ∧ 0 < row.count) ∧
    (∃ out, TrafficDB.getCountryBreakdown ⟨some ⟨rows, seq, true⟩⟩
        site s e = .ok out ∧
      ∃ row ∈ out, row.key = "(unknown)" ∧
        row.count = ((rows.filter (matchesQuery site s e)).map
          coalesceCountry).count "(unknown)" ∧ 0 < row.count) ∧
    (∃ st, TrafficDB.getTrafficStats ⟨some ⟨rows, seq, true⟩⟩ site s e =
        .ok st ∧
      ∀ p ∈ st.top_referrers, (p.referrer, p.count) ∈
        keyCounts ((rows.filter (matchesQuery site s e)).map
          coalesceReferrer)) := by
  obtain ⟨r1, hr1, hr1n⟩ := h1
  obtain ⟨r2, hr2, hr2n⟩ := h2
  obtain ⟨r3, hr3, hr3n⟩ := h3
  refine ⟨?_, ?_, ?_, ?_⟩
  · have hk : "(direct)" ∈ (rows.filter (matchesQuery site s e)).map
        coalesceReferrer :=
      List.mem_map.mpr ⟨r1, hr1, by simp [coalesceReferrer, hr1n]⟩
    obtain ⟨row, hmem, hkey, hcount⟩ := breakdownRows_mem_of_mem _ _ hk
    exact ⟨_, rfl, row, hmem, hkey, hcount,
      hcount ▸ List.count_pos_iff.mpr hk⟩
  · have hk : "(no path)" ∈ (rows.filter (matchesQuery site s e)).map
        coalescePath :=
      List.mem_map.mpr ⟨r2, hr2, by simp [coalescePath, hr2n]⟩
    obtain ⟨row, hmem, hkey, hcount⟩ := breakdownRows_mem_of_mem _ _ hk
    exact ⟨_, rfl, row, hmem, hkey, hcount,
      hcount ▸ List.count_pos_iff.mpr hk⟩
  · have hk : "(unknown)" ∈ (rows.filter (matchesQuery site s e)).map
        coalesceCountry :=
      List.mem_map.mpr ⟨r3, hr3, by simp [coalesceCountry, hr3n]⟩
    obtain ⟨row, hmem, hkey, hcount⟩ := breakdownRows_mem_of_mem _ _ hk
    exact ⟨_, rfl, row, hmem, hkey, hcount,
      hcount ▸ List.count_pos_iff.mpr hk⟩
  · refine ⟨_, rfl, fun p hp => ?_⟩
    have hp' : p ∈ List.insertionSort refCountGe
        ((keyCounts ((rows.filter (matchesQuery site s e)).map
          coalesceReferrer)).map fun q => ⟨q.1, q.2⟩) :=
      List.mem_of_mem_take hp
    have hp'' := (List.perm_insertionSort _ _).mem_iff.mp hp'
    obtain ⟨q, hq, hq2⟩ := List.mem_map.mp hp''
    have : p.referrer = q.1 ∧ p.count = q.2 := by
      cases hq2; exact ⟨rfl, rfl⟩
    rw [this.1, this.2]
    exact hq

/-- Witness for `coalesce_null_keys` on a store with one event whose
`referrer`, `path` and `country` are all omitted. -/
theorem coalesce_null_keys_witness :
    (∃ r ∈ ([⟨1, "site1", 5, none, none, none, none, none, none, none,
               100⟩] : List TrafficRow).filter (matchesQuery "site1" 0 10),
       r.referrer = none) ∧
    (∃ out, TrafficDB.getReferrerBreakdown
        ⟨some ⟨[⟨1, "site1", 5, none, none, none, none, none, none,
                 none, 100⟩], 1, true⟩⟩ "site1" 0 10 = .ok out ∧
      ∃ row ∈ out, row.key = "(direct)" ∧
        row.count = ((([⟨1, "site1", 5, none, none, none, none, none,
            none, none, 100⟩] : List TrafficRow).filter
              (matchesQuery "site1" 0 10)).map
                coalesceReferrer).count "(direct)" ∧
        0 < row.count) := by
  have h := coalesce_null_keys
    [⟨1, "site1", 5, none, none, none, none, none, none, none, 100⟩]
    1 "site1" 0 10 (by decide) (by decide) (by decide)
  exact ⟨by decide, h.1⟩

/-!  ## Claim C2: id assignment and append-only storage -/

/-- The store invariant: an initialized store whose table has strictly
increasing ids (hence no repeats), all at least 1 and at most the
AUTOINCREMENT counter (so the next assigned id `seq + 1` is fresh
forever). -/
def dbInv (t : TrafficDB) : Prop :=
  ∃ c, t.db = some c ∧ List.Pairwise rowIdLt c.rows ∧
    ∀ r ∈ c.rows, 1 ≤ r.id ∧ r.id ≤ c.seq

/-- A successful insert on an open handle appends one row with the
next AUTOINCREMENT id. -/
theorem recordTraffic_open (c : Conn) (hc : c.isOpen = true)
    (r : TrafficRecord) (nowMs nowS : Int) :
    TrafficDB.recordTraffic ⟨some c⟩ r nowMs nowS =
      .ok ⟨some ⟨c.rows ++
        [⟨c.seq + 1, r.siteId, r.timestamp.getD nowMs, r.path,
          r.userAgent, r.ipAddress, r.country, r.city, r.referrer,
          r.requestType, nowS⟩], c.seq + 1, true⟩⟩ := by
  simp [TrafficDB.recordTraffic, getConn, hc]

/-- An insert on a closed handle is rejected by the driver. -/
theorem recordTraffic_closed (c : Conn) (hc : c.isOpen = false)
    (r : TrafficRecord) (nowMs nowS : Int) :
    TrafficDB.recordTraffic ⟨some c⟩ r nowMs nowS =
      .error .handleClosed := by
  simp [TrafficDB.recordTraffic, getConn, hc]

/-- Every post-`initialize` operation preserves the store invariant. -/
theorem runOp_dbInv (t : TrafficDB) (op : Op) (h : dbInv t) :
    dbInv (runOp t op) := by
  obtain ⟨c, hdb, hpw, hb⟩ := h
  obtain ⟨db⟩ := t
  cases hdb
  cases op with
  | record r nowMs nowS =>
    by_cases ho : c.isOpen
    · rw [runOp, recordTraffic_open c ho]
      refine ⟨_, rfl, ?_, ?_⟩
      · rw [List.pairwise_append]
        refine ⟨hpw, List.pairwise_singleton _ _, ?_⟩
        intro a ha b hb'
        rw [List.mem_singleton] at hb'
        subst hb'
        exact Nat.lt_succ_of_le (hb a ha).2
      · intro a ha
        rcases List.mem_append.mp ha with ha | ha
        · exact ⟨(hb a ha).1, Nat.le_succ_of_le (hb a ha).2⟩
        · rw [List.mem_singleton] at ha
          subst ha
          exact ⟨Nat.succ_le_succ (Nat.zero_le _), Nat.le_refl _⟩
    · rw [runOp, recordTraffic_closed c (Bool.of_not_eq_true ho)]
      exact ⟨c, rfl, hpw, hb⟩
  | closeOp =>
    by_cases ho : c.isOpen
    · rw [runOp]
      simp only [TrafficDB.close, ho, if_true]
      exact ⟨_, rfl, hpw, hb⟩
    · rw [runOp]
      simp only [TrafficDB.close, Bool.of_not_eq_true ho, if_false,
        Bool.false_eq_true]
      exact ⟨c, rfl, hpw, hb⟩
  | query q => exact ⟨c, rfl, hpw, hb⟩
  | dailyViews site s e => exact ⟨c, rfl, hpw, hb⟩
  | dailyViewsByPath site s e p => exact ⟨c, rfl, hpw, hb⟩
  | stats site s e => exact ⟨c, rfl, hpw, hb⟩
  | referrers site s e => exact ⟨c, rfl, hpw, hb⟩
  | paths site s e => exact ⟨c, rfl, hpw, hb⟩
  | countries site s e => exact ⟨c, rfl, hpw, hb⟩
  | latest os => exact ⟨c, rfl, hpw, hb⟩

/-- No operation removes or rewrites a stored row: the rows before any
operation are a prefix of the rows after it. -/
theorem runOp_rows_prefix (t : TrafficDB) (op : Op) :
    rowsOf t <+: rowsOf (runOp t op) := by
  obtain ⟨db⟩ := t
  cases op with
  | record r nowMs nowS =>
    cases db with
    | none => exact List.prefix_refl _
    | some c =>
      by_cases ho : c.isOpen
      · rw [runOp, recordTraffic_open c ho]
        exact List.prefix_append _ _
      · rw [runOp, recordTraffic_closed c (Bool.of_not_eq_true ho)]
  | closeOp =>
    cases db with
    | none => exact List.prefix_refl _
    | some c =>
      by_cases ho : c.isOpen
      · rw [runOp]
        simp only [TrafficDB.close, ho, if_true]
        exact List.prefix_refl _
      · rw [runOp]
        simp only [TrafficDB.close, Bool.of_not_eq_true ho, if_false,
          Bool.false_eq_true]
        exact List.prefix_refl _
  | query q => exact List.prefix_refl _
  | dailyViews site s e => exact List.prefix_refl _
  | dailyViewsByPath site s e p => exact List.prefix_refl _
  | stats site s e => exact List.prefix_refl _
  | referrers site s e => exact List.prefix_refl _
  | paths site s e => exact List.prefix_refl _
  | countries site s e => exact List.prefix_refl _
  | latest os => exact List.prefix_refl _

/-- The first state of a scan is the start state. -/
theorem scanl_head_eq (f : TrafficDB → Op → TrafficDB) (b : TrafficDB)
    (l : List Op) : (l.scanl f b).head? = some b := by
  cases l <;> rfl

/-- The invariant and the append-only property hold along every scan
from an invariant-satisfying state. -/
theorem scanl_runOp_inv (ops : List Op) (start : TrafficDB)
    (h : dbInv start) :
    (∀ t ∈ ops.scanl runOp start, dbInv t) ∧
    List.Chain' (fun a b => rowsOf a <+: rowsOf b)
      (ops.scanl runOp start) := by
  induction ops generalizing start with
  | nil =>
    constructor
    · intro t ht
      rw [List.scanl, List.mem_singleton] at ht
      subst ht
      exact h
    · exact List.chain'_singleton _
  | cons op ops ih =>
    obtain ⟨ih1, ih2⟩ := ih (runOp start op) (runOp_dbInv start op h)
    constructor
    · intro t ht
      rw [List.scanl, List.mem_cons] at ht
      rcases ht with rfl | ht
      · exact h
      · exact ih1 t ht
    · rw [List.scanl]
      refine List.Chain'.cons' ih2 ?_
      intro y hy
      rw [scanl_head_eq, Option.mem_def, Option.some.injEq] at hy
      subst hy
      exact runOp_rows_prefix start op

/-- C2: For every sequence of operations issued after
`initialize()`, every reachable table state has strictly increasing
`id`s in insertion order (hence no repeats), all ids are positive and
bounded by the AUTOINCREMENT counter (so an id, once assigned, is
never assigned again), and each operation leaves the previously stored
rows untouched, at most appending new ones (no update or delete). -/
theorem ids_strictly_increasing_append_only (ops : List Op) :
    (∀ t ∈ ops.scanl runOp (TrafficDB.openStore ⟨none⟩),
      List.Pairwise rowIdLt (rowsOf t) ∧ ∀ r ∈ rowsOf t, 1 ≤ r.id) ∧
    List.Chain' (fun a b => rowsOf a <+: rowsOf b)
      (ops.scanl runOp (TrafficDB.openStore ⟨none⟩)) := by
  have hstart : dbInv (TrafficDB.openStore ⟨none⟩) :=
    ⟨⟨[], 0, true⟩, rfl, List.Pairwise.nil, by intro r hr; cases hr⟩
  obtain ⟨h1, h2⟩ := scanl_runOp_inv ops _ hstart
  refine ⟨fun t ht => ?_, h2⟩
  obtain ⟨c, hdb, hpw, hb⟩ := h1 t ht
  rw [rowsOf, hdb]
  exact ⟨hpw, fun r hr => (hb r hr).1⟩

/-!  ## Claim C1: the cursor stream reader -/

/-- In a strictly id-sorted list, every element's id is at most the id
of the last element. -/
theorem id_le_getLast_of_pairwise :
    ∀ (l : List TrafficRow), List.Pairwise rowIdLt l → ∀ (hne : l ≠ []),
      ∀ r ∈ l, r.id ≤ (l.getLast hne).id
  | [], _, hne, _, _ => absurd rfl hne
  | [a], _, _, r, hr => by
    rw [List.mem_singleton] at hr
    subst hr
    exact Nat.le_refl _
  | a :: b :: l, h, _, r, hr => by
    rw [List.getLast_cons (List.cons_ne_nil b l)]
    rcases List.mem_cons.mp hr with rfl | hr'
    · have hmem : (b :: l).getLast (List.cons_ne_nil b l) ∈ b :: l :=
        List.getLast_mem _
      exact Nat.le_of_lt ((List.pairwise_cons.mp h).1 _ hmem)
    · exact id_le_getLast_of_pairwise (b :: l) (List.pairwise_cons.mp h).2
        (List.cons_ne_nil b l) r hr'

/-- In a strictly id-sorted list, everything dropped after a nonempty
taken prefix has an id exceeding the prefix's last id. -/
theorem getLast_take_lt_of_mem_drop (l : List TrafficRow)
    (h : List.Pairwise rowIdLt l) (n : Nat) (hn : l.take n ≠ [])
    (r : TrafficRow) (hr : r ∈ l.drop n) :
    ((l.take n).getLast hn).id < r.id := by
  have hx : (l.take n).getLast hn ∈ l.take n := List.getLast_mem hn
  have hpa : ∀ a ∈ l.take n, ∀ b ∈ l.drop n, rowIdLt a b := by
    have h' := h
    rw [← List.take_append_drop n l, List.pairwise_append] at h'
    exact h'.2.2
  exact hpa _ hx r hr

/-- The cursor loop, run with enough fuel over a strictly id-sorted
table and a positive batch size, yields exactly the matching rows
above the cursor, in table (= id) order. -/
theorem streamAux_eq_filter (rows : List TrafficRow) (site : String)
    (s e : Int) (bs : Nat) (hrows : List.Pairwise rowIdLt rows)
    (hbs : 1 ≤ bs) :
    ∀ (fuel lastId : Nat),
      (rows.filter fun r =>
        matchesQuery site s e r && decide (lastId < r.id)).length < fuel →
      streamAux rows site s e bs fuel lastId =
        rows.filter fun r =>
          matchesQuery site s e r && decide (lastId < r.id)
  | 0, lastId => fun h => absurd h (Nat.not_lt_zero _)
  | fuel + 1, lastId => by
    intro hlen
    set L := rows.filter fun r =>
      matchesQuery site s e r && decide (lastId < r.id) with hLdef
    have hLpw : List.Pairwise rowIdLt L := hrows.filter _
    have hLsorted : List.Sorted rowIdLe L :=
      hLpw.imp fun h => Nat.le_of_lt h
    have hbatch : fetchBatch rows site s e lastId bs = L.take bs := by
      rw [fetchBatch, ← hLdef, List.Sorted.insertionSort_eq hLsorted]
    rw [streamAux]
    simp only [hbatch]
    by_cases hempty : L.take bs = []
    · rw [dif_pos hempty]
      rcases List.take_eq_nil_iff.mp hempty with h0 | h0
      · omega
      · rw [h0]
    · rw [dif_neg hempty]
      obtain ⟨x, hx⟩ : ∃ x, (L.take bs).getLast hempty = x := ⟨_, rfl⟩
      rw [hx]
      have hxmemL : x ∈ L := by
        rw [← hx]
        exact List.mem_of_mem_take (List.getLast_mem hempty)
      have hxtake : ∀ a ∈ L.take bs, a.id ≤ x.id := by
        rw [← hx]
        exact id_le_getLast_of_pairwise (L.take bs)
          (hLpw.sublist (List.take_sublist bs L)) hempty
      have hxdrop : ∀ a ∈ L.drop bs, x.id < a.id := by
        rw [← hx]
        exact getLast_take_lt_of_mem_drop L hLpw bs hempty
      have hlast : lastId < x.id := by
        rw [hLdef] at hxmemL
        have h1 := (List.mem_filter.mp hxmemL).2
        rw [Bool.and_eq_true] at h1
        exact of_decide_eq_true h1.2
      have hstep1 : (rows.filter fun r =>
          matchesQuery site s e r && decide (x.id < r.id)) =
          L.filter fun r => decide (x.id < r.id) := by
        rw [hLdef, List.filter_filter]
        refine (List.filter_congr fun r _ => ?_).symm
        by_cases h1 : x.id < r.id
        · have h2 : lastId < r.id := Nat.lt_trans hlast h1
          simp [h1, h2, Bool.and_comm]
        · simp [h1]
      have hstep2 : (L.filter fun r => decide (x.id < r.id)) =
          L.drop bs := by
        conv_lhs => rw [← List.take_append_drop bs L]
        rw [List.filter_append]
        have htake : ((L.take bs).filter fun r =>
            decide (x.id < r.id)) = [] := by
          rw [List.filter_eq_nil_iff]
          intro a ha hcontra
          exact absurd (hxtake a ha)
            (Nat.not_le_of_lt (of_decide_eq_true hcontra))
        have hdrop : ((L.drop bs).filter fun r =>
            decide (x.id < r.id)) = L.drop bs := by
          rw [List.filter_eq_self]
          intro a ha
          exact decide_eq_true (hxdrop a ha)
        rw [htake, hdrop, List.nil_append]
      have hnext : (rows.filter fun r =>
          matchesQuery site s e r && decide (x.id < r.id)) =
          L.drop bs := hstep1.trans hstep2
      have hLne : L ≠ [] := by
        intro h0
        rw [h0, List.take_nil] at hempty
        exact hempty rfl
      have hlen2 : (rows.filter fun r =>
          matchesQuery site s e r && decide (x.id < r.id)).length <
          fuel := by
        rw [hnext, List.length_drop]
        have h1 : 1 ≤ L.length := List.length_pos.mpr hLne
        omega
      rw [streamAux_eq_filter rows site s e bs hrows hbs fuel x.id hlen2,
        hnext, List.take_append_drop]

/-- C1 amended (positive `batchSize`): Over a fixed table whose
ids are strictly increasing in table order and positive (the store
invariant of `ids_strictly_increasing_append_only`), `queryTraffic` /
`queryTrafficStream` with any `batchSize ≥ 1` return exactly the rows
whose `siteId` matches and whose `timestamp` lies in
`[startTime, endTime]` inclusive — each exactly once, in ascending id
order (the result list is the filtered table, strictly id-sorted) —
and the result does not depend on `batchSize` (the right-hand side
does not mention it). -/
theorem queryTraffic_eq_matching (rows : List TrafficRow) (seq : Nat)
    (site : String) (s e : Int) (bs : Nat)
    (hrows : List.Pairwise rowIdLt rows) (hpos : ∀ r ∈ rows, 1 ≤ r.id)
    (hbs : 1 ≤ bs) :
    TrafficDB.queryTraffic ⟨some ⟨rows, seq, true⟩⟩
        ⟨site, s, e, none, some bs⟩ =
      .ok (rows.filter (matchesQuery site s e)) ∧
    TrafficDB.queryTrafficStream ⟨some ⟨rows, seq, true⟩⟩
        ⟨site, s, e, none, some bs⟩ =
      .ok (rows.filter (matchesQuery site s e)) ∧
    List.Pairwise rowIdLt (rows.filter (matchesQuery site s e)) ∧
    (∀ r, r ∈ rows.filter (matchesQuery site s e) ↔
      r ∈ rows ∧ matchesQuery site s e r = true) := by
  have hstream : TrafficDB.queryTrafficStream ⟨some ⟨rows, seq, true⟩⟩
      ⟨site, s, e, none, some bs⟩ =
      .ok (rows.filter (matchesQuery site s e)) := by
    rw [TrafficDB.queryTrafficStream,
      show getConn ⟨some ⟨rows, seq, true⟩⟩ = .ok ⟨rows, seq, true⟩
        from rfl]
    dsimp only
    rw [show (some bs).getD 1000 = bs from rfl]
    have hlen : (rows.filter fun r =>
        matchesQuery site s e r && decide (0 < r.id)).length <
        rows.length + 1 :=
      Nat.lt_succ_of_le (List.length_filter_le _ _)
    rw [streamAux_eq_filter rows site s e bs hrows hbs
      (rows.length + 1) 0 hlen]
    refine congrArg _ (List.filter_congr fun r hr => ?_)
    have h1 : decide (0 < r.id) = true :=
      decide_eq_true (Nat.lt_of_lt_of_le Nat.zero_lt_one (hpos r hr))
    rw [h1, Bool.and_true]
  refine ⟨hstream, hstream, hrows.filter _, fun r => List.mem_filter⟩

/-- C1 counterexample: The claim quantifies over *every*
`batchSize`, but an explicit `batchSize = 0` (which JS destructuring
does not replace by the default, 0 being defined) makes every `LIMIT
0` fetch return zero rows, so the stream stops immediately and returns
the empty list even though a matching event exists. -/
theorem queryTraffic_batchSize_zero_empty :
    TrafficDB.queryTraffic
        ⟨some ⟨[⟨1, "site1", 5, none, none, none, none, none, none,
                 none, 100⟩], 1, true⟩⟩ ⟨"site1", 0, 10, none, some 0⟩ =
      .ok [] ∧
    matchesQuery "site1" 0 10
      ⟨1, "site1", 5, none, none, none, none, none, none, none, 100⟩ =
      true ∧
    TrafficDB.queryTraffic
        ⟨some ⟨[⟨1, "site1", 5, none, none, none, none, none, none,
                 none, 100⟩], 1, true⟩⟩ ⟨"site1", 0, 10, none, some 1⟩ =
      .ok [⟨1, "site1", 5, none, none, none, none, none, none, none,
            100⟩] :=
  ⟨rfl, by decide, rfl⟩

/-- Witness for `queryTraffic_eq_matching`: a three-row store (one row
of another site) scanned with `batchSize = 1`, so the loop takes three
iterations and returns the two matching rows once each, in id order. -/
theorem queryTraffic_eq_matching_witness :
    List.Pairwise rowIdLt
      ([⟨1, "site1", 5, none, none, none, none, none, none, none, 100⟩,
        ⟨2, "other", 6, none, none, none, none, none, none, none, 100⟩,
        ⟨3, "site1", 7, none, none, none, none, none, none, none, 100⟩] :
        List TrafficRow) ∧
    (1 : Nat) ≤ 1 ∧
    TrafficDB.queryTraffic
        ⟨some ⟨[⟨1, "site1", 5, none, none, none, none, none, none,
                 none, 100⟩,
                ⟨2, "other", 6, none, none, none, none, none, none,
                 none, 100⟩,
                ⟨3, "site1", 7, none, none, none, none, none, none,
                 none, 100⟩], 3, true⟩⟩ ⟨"site1", 0, 10, none, some 1⟩ =
      .ok (([⟨1, "site1", 5, none, none, none, none, none, none, none,
              100⟩,
             ⟨2, "other", 6, none, none, none, none, none, none, none,
              100⟩,
             ⟨3, "site1", 7, none, none, none, none, none, none, none,
              100⟩] : List TrafficRow).filter
        (matchesQuery "site1" 0 10)) := by
  refine ⟨by decide, by decide, ?_⟩
  exact (queryTraffic_eq_matching
    [⟨1, "site1", 5, none, none, none, none, none, none, none, 100⟩,
     ⟨2, "other", 6, none, none, none, none, none, none, none, 100⟩,
     ⟨3, "site1", 7, none, none, none, none, none, none, none, 100⟩]
    3 "site1" 0 10 1 (by decide) (by decide) (by decide)).1

/-!  ## Claim C4: breakdown reports -/

/-- The grouped counts sum to the number of grouped values. -/
theorem keyCounts_sum (keys : List String) :
    ((keyCounts keys).map fun p => p.2).sum = keys.length := by
  rw [keyCounts, List.map_map]
  exact List.sum_map_count_dedup_eq_length keys

/-- The counts of a breakdown report sum to the number of grouped
values (= the number of matching events). -/
theorem breakdownRows_counts_sum (keys : List String) :
    ((breakdownRows keys).map fun r => r.count).sum = keys.length := by
  simp only [breakdownRows]
  rw [(List.Perm.map _ (List.perm_insertionSort _ _)).sum_eq,
    List.map_map]
  exact Eq.trans
    (congrArg List.sum (List.map_congr_left fun p _ => rfl))
    (keyCounts_sum keys)

/-- Each breakdown row's percentage is its count over the total,
times 100, rounded to two decimals. -/
theorem breakdownRows_percentage (keys : List String) :
    ∀ row ∈ breakdownRows keys,
      row.percentage =
        round2 ((row.count : ℚ) / (keys.length : ℚ) * 100) := by
  intro row hrow
  simp only [breakdownRows] at hrow
  have hrow' := (List.perm_insertionSort _ _).mem_iff.mp hrow
  obtain ⟨p, hp, hpe⟩ := List.mem_map.mp hrow'
  subst hpe
  simp only
  rw [keyCounts_sum keys]

/-- Breakdown rows are ordered by count descending. -/
theorem breakdownRows_sorted (keys : List String) :
    List.Sorted rowCountGe (breakdownRows keys) := by
  simp only [breakdownRows]
  exact List.sorted_insertionSort rowCountGe _

/-- With no matching events the report is empty (and no division is
attempted: the cross join with the total row produces no output). -/
theorem breakdownRows_nil : breakdownRows [] = [] := rfl

/-- The rounding `round2` moves a value by at most half of one hundredth. -/
theorem round2_close (x : ℚ) : |round2 x - x| ≤ 1 / 200 := by
  rw [round2]
  have h := abs_sub_round (x * 100)
  rw [abs_sub_comm] at h
  have h2 : (round (x * 100) : ℚ) / 100 - x =
      ((round (x * 100) : ℚ) - x * 100) / 100 := by ring
  rw [h2, abs_div]
  rw [show |(100 : ℚ)| = 100 by norm_num]
  calc |(round (x * 100) : ℚ) - x * 100| / 100 ≤ (1 / 2) / 100 :=
        div_le_div_of_nonneg_right h (by norm_num)
    _ = 1 / 200 := by norm_num

/-- Summed rounding error of a list. -/
theorem sum_map_round2_close (l : List ℚ) :
    |(l.map round2).sum - l.sum| ≤ (l.length : ℚ) * (1 / 200) := by
  induction l with
  | nil => simp
  | cons x xs ih =>
    simp only [List.map_cons, List.sum_cons, List.length_cons]
    have h1 : |round2 x - x| ≤ 1 / 200 := round2_close x
    have h2 : round2 x + (xs.map round2).sum - (x + xs.sum) =
        (round2 x - x) + ((xs.map round2).sum - xs.sum) := by ring
    rw [h2]
    calc |(round2 x - x) + ((xs.map round2).sum - xs.sum)| ≤
          |round2 x - x| + |(xs.map round2).sum - xs.sum| := abs_add _ _
      _ ≤ 1 / 200 + (xs.length : ℚ) * (1 / 200) := add_le_add h1 ih
      _ = (((xs.length + 1 : ℕ)) : ℚ) * (1 / 200) := by push_cast; ring

/-- Summing `c / T * 100` over a list of counts. -/
theorem sum_map_div_mul (cs : List ℕ) (T : ℚ) :
    (cs.map fun c : ℕ => (c : ℚ) / T * 100).sum =
      ((cs.sum : ℕ) : ℚ) / T * 100 := by
  induction cs with
  | nil => simp
  | cons x xs ih =>
    simp only [List.map_cons, List.sum_cons, ih]
    push_cast
    ring

/-- The exact (pre-rounding) percentages sum to exactly 100. -/
theorem exact_percentages_sum (cs : List ℕ) (h0 : cs.sum ≠ 0) :
    (cs.map fun c : ℕ => (c : ℚ) / ((cs.sum : ℕ) : ℚ) * 100).sum =
      100 := by
  have hT : ((cs.sum : ℕ) : ℚ) ≠ 0 := by exact_mod_cast h0
  rw [sum_map_div_mul, div_self hT, one_mul]

/-- Reading off the percentage column of the pre-sort report rows. -/
theorem sum_pct_over_groups (groups : List (String × Nat)) (T : ℚ) :
    ((groups.map fun p =>
        (⟨p.1, p.2, round2 ((p.2 : ℚ) / T * 100)⟩ : BreakdownRow)).map
      fun r => r.percentage).sum =
      (((groups.map fun p => p.2).map
        fun c : ℕ => (c : ℚ) / T * 100).map round2).sum := by
  rw [List.map_map, List.map_map, List.map_map]
  exact congrArg List.sum (List.map_congr_left fun p _ => rfl)

/-- With at least one matching event, the rounded percentages sum to
100 up to the accumulated rounding tolerance (half of one hundredth
per row). -/
theorem breakdownRows_percentages_sum (keys : List String)
    (h0 : keys ≠ []) :
    |((breakdownRows keys).map fun r => r.percentage).sum - 100| ≤
      ((breakdownRows keys).length : ℚ) * (1 / 200) := by
  have hne : ((keyCounts keys).map fun p => p.2).sum ≠ 0 := by
    rw [keyCounts_sum keys]
    intro h
    exact h0 (List.length_eq_zero.mp h)
  simp only [breakdownRows]
  rw [(List.Perm.map _ (List.perm_insertionSort _ _)).sum_eq,
    (List.perm_insertionSort _ _).length_eq,
    sum_pct_over_groups, List.length_map]
  set cs := (keyCounts keys).map fun p => p.2 with hcs
  have h100 : (cs.map fun c : ℕ =>
      (c : ℚ) / ((cs.sum : ℕ) : ℚ) * 100).sum = 100 :=
    exact_percentages_sum cs hne
  calc |((cs.map fun c : ℕ =>
          (c : ℚ) / ((cs.sum : ℕ) : ℚ) * 100).map round2).sum - 100|
      = |((cs.map fun c : ℕ =>
          (c : ℚ) / ((cs.sum : ℕ) : ℚ) * 100).map round2).sum -
         (cs.map fun c : ℕ =>
          (c : ℚ) / ((cs.sum : ℕ) : ℚ) * 100).sum| := by rw [h100]
    _ ≤ ((cs.map fun c : ℕ =>
          (c : ℚ) / ((cs.sum : ℕ) : ℚ) * 100).length : ℚ) * (1 / 200) :=
        sum_map_round2_close _
    _ = ((keyCounts keys).length : ℚ) * (1 / 200) := by
        rw [List.length_map, hcs, List.length_map]

/-- C4: Each breakdown report (`getReferrerBreakdown`,
`getPathsBreakdown`, `getCountryBreakdown`) is `breakdownRows` of the
coalesced key values of the matching events, and for every key list:
the counts sum to the number of grouped values (= matching events,
since one key is grouped per matching event); every row's percentage
is `ROUND(count / total * 100, 2)` with `total` the number of matching
events; rows are ordered by count descending; an empty match yields an
empty report with no division error; and with at least one match the
percentages sum to 100 within the accumulated rounding tolerance. -/
theorem breakdown_reports_spec (rows : List TrafficRow) (seq : Nat)
    (site : String) (s e : Int) :
    (TrafficDB.getReferrerBreakdown ⟨some ⟨rows, seq, true⟩⟩ site s e =
      .ok (breakdownRows ((rows.filter (matchesQuery site s e)).map
        coalesceReferrer))) ∧
    (TrafficDB.getPathsBreakdown ⟨some ⟨rows, seq, true⟩⟩ site s e =
      .ok (breakdownRows ((rows.filter (matchesQuery site s e)).map
        coalescePath))) ∧
    (TrafficDB.getCountryBreakdown ⟨some ⟨rows, seq, true⟩⟩ site s e =
      .ok (breakdownRows ((rows.filter (matchesQuery site s e)).map
        coalesceCountry))) ∧
    (∀ keys : List String,
      ((breakdownRows keys).map fun r => r.count).sum = keys.length ∧
      (∀ row ∈ breakdownRows keys,
        row.percentage =
          round2 ((row.count : ℚ) / (keys.length : ℚ) * 100)) ∧
      List.Sorted rowCountGe (breakdownRows keys) ∧
      (keys = [] → breakdownRows keys = []) ∧
      (keys ≠ [] →
        |((breakdownRows keys).map fun r => r.percentage).sum - 100| ≤
          ((breakdownRows keys).length : ℚ) * (1 / 200))) := by
  refine ⟨rfl, rfl, rfl, fun keys =>
    ⟨breakdownRows_counts_sum keys, breakdownRows_percentage keys,
     breakdownRows_sorted keys, fun h => by rw [h]; rfl,
     breakdownRows_percentages_sum keys⟩⟩

/-- Witness for `breakdown_reports_spec` at the concrete key list
`["a", "b"]` (two matching events in distinct groups). -/
theorem breakdown_reports_spec_witness :
    (["a", "b"] : List String) ≠ [] ∧
    ((breakdownRows ["a", "b"]).map fun r => r.count).sum = 2 ∧
    |((breakdownRows ["a", "b"]).map fun r => r.percentage).sum - 100| ≤
      ((breakdownRows ["a", "b"]).length : ℚ) * (1 / 200) := by
  have h := (breakdown_reports_spec [] 0 "s" 0 0).2.2.2 ["a", "b"]
  exact ⟨by decide, h.1, h.2.2.2.2 (by decide)⟩

/-!  ## Claim C3: the daily-views date spine -/

/-- The spine has one entry per day of the inclusive day range. -/
theorem dateSpine_length (d0 d1 : Int) :
    (dateSpine d0 d1).length = (d1 - d0).toNat + 1 := by
  rw [dateSpine, List.length_cons, List.length_map, List.length_range]

/-- The spine entries are the consecutive day numbers from `d0`. -/
theorem dateSpine_getElem (d0 d1 : Int) (i : Nat)
    (hi : i < (dateSpine d0 d1).length) :
    (dateSpine d0 d1)[i] = d0 + i := by
  match i with
  | 0 => simp [dateSpine]
  | i + 1 =>
    simp only [dateSpine] at hi ⊢
    simp only [List.getElem_cons_succ, List.getElem_map,
      List.getElem_range]
    push_cast
    ring

/-- Lexicographic (calendar) order on dates. -/
def ymdLexLt (a b : Ymd) : Prop :=
  a.y < b.y ∨ (a.y = b.y ∧ (a.m < b.m ∨ (a.m = b.m ∧ a.d < b.d)))

/-- Stepping one day forward strictly increases the calendar date. -/
theorem ymdLexLt_succYmd (x : Ymd) : ymdLexLt x (succYmd x) := by
  rw [succYmd, ymdLexLt]
  split_ifs with h1 h2 <;> dsimp only <;> omega

/-- Stepping one day backward strictly decreases the calendar date. -/
theorem predYmd_ymdLexLt (x : Ymd) : ymdLexLt (predYmd x) x := by
  rw [predYmd, ymdLexLt]
  split_ifs with h1 h2 <;> dsimp only <;> omega

/-- For a nonnegative day number the date is reached by forward
steps. -/
theorem ymdOfDay_nonneg (z : Int) (h : 0 ≤ z) :
    ymdOfDay z = succIter z.toNat epochYmd := by
  rw [ymdOfDay, if_pos h]

/-- For a negative day number the date is reached by backward steps,
one more than for the successor day. -/
theorem ymdOfDay_neg (z : Int) (h : z < 0) :
    ymdOfDay z = predYmd (ymdOfDay (z + 1)) := by
  rw [ymdOfDay, if_neg (by omega)]
  by_cases h1 : z + 1 = 0
  · rw [h1, ymdOfDay, if_pos (by omega)]
    have h2 : (-z).toNat = 1 := by omega
    rw [h2]
    rfl
  · rw [ymdOfDay, if_neg (by omega)]
    have h2 : (-z).toNat = (-(z + 1)).toNat + 1 := by omega
    rw [h2]
    rfl

/-- One day forward on day numbers is one calendar day forward. -/
theorem ymdOfDay_succ (z : Int) :
    ymdOfDay (z + 1) = succYmd (ymdOfDay z) ∨
      ymdOfDay z = predYmd (ymdOfDay (z + 1)) := by
  by_cases h : 0 ≤ z
  · left
    rw [ymdOfDay_nonneg z h, ymdOfDay_nonneg (z + 1) (by omega)]
    have h2 : (z + 1).toNat = z.toNat + 1 := by omega
    rw [h2]
    rfl
  · right
    exact ymdOfDay_neg z (by omega)

/-- Consecutive day numbers give strictly increasing calendar dates. -/
theorem ymdOfDay_lexLt_succ (z : Int) :
    ymdLexLt (ymdOfDay z) (ymdOfDay (z + 1)) := by
  rcases ymdOfDay_succ z with h | h
  · rw [h]
    exact ymdLexLt_succYmd _
  · rw [h]
    exact predYmd_ymdLexLt _

/-- Every month has at most 31 days. -/
theorem daysInMonth_le (y : Int) (m : Nat) : daysInMonth y m ≤ 31 := by
  rw [daysInMonth]
  split_ifs <;> omega

/-- Every month has at least one day. -/
theorem daysInMonth_pos (y : Int) (m : Nat) : 1 ≤ daysInMonth y m := by
  rw [daysInMonth]
  split_ifs <;> omega

/-- Well-formedness of a calendar date's month and day fields. -/
def validYmd (x : Ymd) : Prop :=
  1 ≤ x.m ∧ x.m ≤ 12 ∧ 1 ≤ x.d ∧ x.d ≤ 31

theorem validYmd_succYmd (x : Ymd) (h : validYmd x) :
    validYmd (succYmd x) := by
  rw [validYmd] at h
  have hle := daysInMonth_le x.y x.m
  rw [succYmd]
  split_ifs with g1 g2 <;> rw [validYmd] <;> dsimp only <;> omega

theorem validYmd_predYmd (x : Ymd) (h : validYmd x) :
    validYmd (predYmd x) := by
  rw [validYmd] at h
  have hle := daysInMonth_le x.y (x.m - 1)
  have hpos := daysInMonth_pos x.y (x.m - 1)
  rw [predYmd]
  split_ifs with g1 g2 <;> rw [validYmd] <;> dsimp only <;> omega

theorem validYmd_epochYmd : validYmd epochYmd := by
  rw [validYmd, epochYmd]
  refine ⟨?_, ?_, ?_, ?_⟩ <;> norm_num

theorem validYmd_succIter (n : Nat) (x : Ymd) (h : validYmd x) :
    validYmd (succIter n x) := by
  induction n with
  | zero => exact h
  | succ n ih => exact validYmd_succYmd _ ih

theorem validYmd_predIter (n : Nat) (x : Ymd) (h : validYmd x) :
    validYmd (predIter n x) := by
  induction n with
  | zero => exact h
  | succ n ih => exact validYmd_predYmd _ ih

/-- Every reachable calendar date is well formed. -/
theorem validYmd_ymdOfDay (z : Int) : validYmd (ymdOfDay z) := by
  rw [ymdOfDay]
  split_ifs with h
  · exact validYmd_succIter _ _ validYmd_epochYmd
  · exact validYmd_predIter _ _ validYmd_epochYmd

/-- A forward day step changes the year by zero or one. -/
theorem succYmd_y (x : Ymd) :
    x.y ≤ (succYmd x).y ∧ (succYmd x).y ≤ x.y + 1 := by
  rw [succYmd]
  split_ifs <;> dsimp only <;> omega

/-- A backward day step changes the year by zero or one. -/
theorem predYmd_y (x : Ymd) :
    (predYmd x).y ≤ x.y ∧ x.y - 1 ≤ (predYmd x).y := by
  rw [predYmd]
  split_ifs <;> dsimp only <;> omega

theorem succIter_y_ge (n : Nat) (x : Ymd) : x.y ≤ (succIter n x).y := by
  induction n with
  | zero => exact le_refl _
  | succ n ih => exact le_trans ih (succYmd_y _).1

/-- Days on or after the epoch are in 1970 or later. -/
theorem ymdOfDay_y_ge (z : Int) (h : 0 ≤ z) :
    1970 ≤ (ymdOfDay z).y := by
  rw [ymdOfDay_nonneg z h]
  exact succIter_y_ge z.toNat epochYmd

/-- The year is monotone along consecutive days. -/
theorem ymdOfDay_y_step (z : Int) :
    (ymdOfDay z).y ≤ (ymdOfDay (z + 1)).y := by
  rcases ymdOfDay_succ z with h | h
  · rw [h]
    exact (succYmd_y _).1
  · rw [h]
    exact (predYmd_y _).1

/-- The year is monotone in the day number. -/
theorem ymdOfDay_y_mono {z w : Int} (h : z ≤ w) :
    (ymdOfDay z).y ≤ (ymdOfDay w).y := by
  have key : ∀ n : Nat, ∀ v : Int,
      (ymdOfDay v).y ≤ (ymdOfDay (v + (n : Int))).y := by
    intro n
    induction n with
    | zero => intro v; simp
    | succ n ih =>
      intro v
      have h1 := ih v
      have h2 := ymdOfDay_y_step (v + (n : Int))
      have h3 : v + ((n + 1 : Nat) : Int) = (v + (n : Int)) + 1 := by
        push_cast
        ring
      rw [h3]
      exact le_trans h1 h2
  have h4 : z + (((w - z).toNat : Nat) : Int) = w := by omega
  rw [← h4]
  exact key (w - z).toNat z

/-- Digit characters compare like their digits. -/
theorem digitChar_lt_digitChar (x y : Nat) (hxy : x < y) (hy : y ≤ 9) :
    digitChar x < digitChar y := by
  have h : ∀ a : Fin 10, ∀ b : Fin 10, a.val < b.val →
      digitChar a.val < digitChar b.val := by decide
  exact h ⟨x, by omega⟩ ⟨y, by omega⟩ hxy

/-- A shared prefix preserves a lexicographic comparison. -/
theorem lex_append_left (s : List Char) {u v : List Char}
    (h : List.Lex (· < ·) u v) :
    List.Lex (· < ·) (s ++ u) (s ++ v) := by
  induction s with
  | nil => exact h
  | cons a s ih => exact List.Lex.cons ih

/-- An equal-length strict comparison decides the comparison of any
extensions. -/
theorem lex_append_of_length_eq :
    ∀ {s t : List Char}, List.Lex (· < ·) s t → s.length = t.length →
      ∀ (u v : List Char), List.Lex (· < ·) (s ++ u) (t ++ v)
  | _, _, List.Lex.nil, hlen, u, v => by simp at hlen
  | _, _, List.Lex.cons h, hlen, u, v =>
    List.Lex.cons (lex_append_of_length_eq h (by simpa using hlen) u v)
  | _, _, List.Lex.rel h, _, u, v => List.Lex.rel h

/-- Two-digit zero-padded renderings compare like the numbers. -/
theorem pad2Chars_lex (a b : Nat) (hab : a < b) (hb : b ≤ 99) :
    List.Lex (· < ·) (pad2Chars a) (pad2Chars b) := by
  rw [pad2Chars, pad2Chars]
  by_cases h : a / 10 < b / 10
  · exact List.Lex.rel (digitChar_lt_digitChar _ _ h (by omega))
  · have h1 : a / 10 = b / 10 := by omega
    have h2 : a % 10 < b % 10 := by omega
    rw [h1]
    exact List.Lex.cons
      (List.Lex.rel (digitChar_lt_digitChar _ _ h2 (by omega)))

/-- A four-digit rendering is two two-digit renderings. -/
theorem pad4Chars_eq (n : Nat) :
    pad4Chars n = pad2Chars (n / 100) ++ pad2Chars (n % 100) := by
  rw [pad4Chars, pad2Chars, pad2Chars]
  have h1 : n / 100 / 10 = n / 1000 := by
    rw [Nat.div_div_eq_div_mul]
  have h3 : n % 100 / 10 = n / 10 % 10 := by omega
  have h4 : n % 100 % 10 = n % 10 := by omega
  rw [h1, h3, h4]
  rfl

/-- Four-digit zero-padded renderings compare like the numbers. -/
theorem pad4Chars_lex (a b : Nat) (hab : a < b) (hb : b ≤ 9999) :
    List.Lex (· < ·) (pad4Chars a) (pad4Chars b) := by
  rw [pad4Chars_eq, pad4Chars_eq]
  by_cases h : a / 100 < b / 100
  · exact lex_append_of_length_eq (pad2Chars_lex _ _ h (by omega)) rfl _ _
  · have h1 : a / 100 = b / 100 := by omega
    have h2 : a % 100 < b % 100 := by omega
    rw [h1]
    exact lex_append_left _ (pad2Chars_lex _ _ h2 (by omega))

/-- `YYYY-MM-DD` renderings of representable dates compare like the
dates. -/
theorem ymdChars_lex (a b : Ymd) (hlex : ymdLexLt a b)
    (hva : validYmd a) (hvb : validYmd b) (ha0 : 0 ≤ a.y)
    (hb9 : b.y ≤ 9999) :
    List.Lex (· < ·) (ymdChars a) (ymdChars b) := by
  obtain ⟨ham1, ham2, had1, had2⟩ := hva
  obtain ⟨hbm1, hbm2, hbd1, hbd2⟩ := hvb
  rw [ymdChars, ymdChars]
  rcases hlex with hy | ⟨hy, hm | ⟨hm, hd⟩⟩
  · exact lex_append_of_length_eq (pad4Chars_lex _ _ (by omega) (by omega))
      (by rfl) _ _
  · rw [hy]
    refine lex_append_left _ (List.Lex.cons ?_)
    exact lex_append_of_length_eq (pad2Chars_lex _ _ hm (by omega))
      (by rfl) _ _
  · rw [hy, hm]
    refine lex_append_left _ (List.Lex.cons ?_)
    refine lex_append_left _ (List.Lex.cons ?_)
    exact pad2Chars_lex _ _ hd (by omega)

/-- Consecutive representable days have strictly increasing
`YYYY-MM-DD` strings. -/
theorem dateString_lt_succ (z : Int) (h0 : 0 ≤ z)
    (h9 : (ymdOfDay (z + 1)).y ≤ 9999) :
    dateString z < dateString (z + 1) := by
  rw [dateString, dateString, String.lt_iff_toList_lt]
  show List.Lex (· < ·) (ymdChars (ymdOfDay z))
    (ymdChars (ymdOfDay (z + 1)))
  have hy0 : 1970 ≤ (ymdOfDay z).y := ymdOfDay_y_ge z h0
  exact ymdChars_lex _ _ (ymdOfDay_lexLt_succ z) (validYmd_ymdOfDay z)
    (validYmd_ymdOfDay (z + 1)) (by omega) h9

/-- The date strings along a representable spine strictly increase. -/
theorem dateSpine_chain_dateString (d0 d1 : Int) (h0 : 0 ≤ d0)
    (h9 : (ymdOfDay d1).y ≤ 9999) (hle : d0 ≤ d1) :
    List.Chain' (fun a b : Int => dateString a < dateString b)
      (dateSpine d0 d1) := by
  rw [List.chain'_iff_get]
  intro i hi
  rw [dateSpine_length] at hi
  simp only [List.get_eq_getElem, Fin.val_mk]
  rw [dateSpine_getElem, dateSpine_getElem]
  have he : d0 + ((i + 1 : Nat) : Int) = (d0 + (i : Int)) + 1 := by
    push_cast
    ring
  rw [he]
  refine dateString_lt_succ _ (by omega) ?_
  have hmono : (ymdOfDay ((d0 + (i : Int)) + 1)).y ≤ (ymdOfDay d1).y :=
    ymdOfDay_y_mono (by omega)
  omega

/-- The spine endpoints are ordered when the query range is. -/
theorem epochDay_fdiv_mono (s e : Int) (h : s ≤ e) :
    epochDay (s.fdiv 1000) ≤ epochDay (e.fdiv 1000) := by
  rw [epochDay, epochDay, Int.fdiv_eq_ediv _ (by norm_num),
    Int.fdiv_eq_ediv _ (by norm_num), Int.fdiv_eq_ediv _ (by norm_num),
    Int.fdiv_eq_ediv _ (by norm_num)]
  omega

/-- C3: For `startTime ≤ endTime`, `getDailyViews` returns one
row per calendar day of the inclusive day range
`[date(floor(startTime/1000)), date(floor(endTime/1000))]` — `N` rows
for a range spanning `N` days, rows with count 0 included — where row
`i` carries the `YYYY-MM-DD` string of the `i`-th day and the number
of the site's events whose `createdAt` falls on that day; and (for
ranges within SQLite's representable calendar, year at most 9999 and
nonnegative times) the date strings are strictly ascending. -/
theorem getDailyViews_spec (rows : List TrafficRow) (seq : Nat)
    (site : String) (s e : Int) (hse : s ≤ e) :
    TrafficDB.getDailyViews ⟨some ⟨rows, seq, true⟩⟩ site s e =
      .ok ((dateSpine (epochDay (s.fdiv 1000))
          (epochDay (e.fdiv 1000))).map fun d =>
        ⟨dateString d, dailyCount rows site d⟩) ∧
    ((dateSpine (epochDay (s.fdiv 1000))
        (epochDay (e.fdiv 1000))).map fun d =>
      (⟨dateString d, dailyCount rows site d⟩ : DailyViews)).length =
      (epochDay (e.fdiv 1000) - epochDay (s.fdiv 1000)).toNat + 1 ∧
    (∀ i, ∀ hi : i < ((dateSpine (epochDay (s.fdiv 1000))
        (epochDay (e.fdiv 1000))).map fun d =>
      (⟨dateString d, dailyCount rows site d⟩ : DailyViews)).length,
      (((dateSpine (epochDay (s.fdiv 1000))
          (epochDay (e.fdiv 1000))).map fun d =>
        (⟨dateString d, dailyCount rows site d⟩ : DailyViews))[i]).date =
          dateString (epochDay (s.fdiv 1000) + i) ∧
      (((dateSpine (epochDay (s.fdiv 1000))
          (epochDay (e.fdiv 1000))).map fun d =>
        (⟨dateString d, dailyCount rows site d⟩ : DailyViews))[i]).count =
          dailyCount rows site (epochDay (s.fdiv 1000) + i)) ∧
    (0 ≤ s → (ymdOfDay (epochDay (e.fdiv 1000))).y ≤ 9999 →
      List.Chain' (fun a b : DailyViews => a.date < b.date)
        ((dateSpine (epochDay (s.fdiv 1000))
            (epochDay (e.fdiv 1000))).map fun d =>
          ⟨dateString d, dailyCount rows site d⟩)) := by
  refine ⟨rfl, ?_, ?_, ?_⟩
  · rw [List.length_map, dateSpine_length]
  · intro i hi
    rw [List.length_map] at hi
    rw [List.getElem_map, dateSpine_getElem _ _ _ hi]
    exact ⟨rfl, rfl⟩
  · intro h0 h9
    rw [List.chain'_map]
    have h0' : 0 ≤ epochDay (s.fdiv 1000) := by
      rw [epochDay, Int.fdiv_eq_ediv _ (by norm_num),
        Int.fdiv_eq_ediv _ (by norm_num)]
      omega
    exact dateSpine_chain_dateString _ _ h0' h9
      (epochDay_fdiv_mono s e hse)

/-- Witness for `getDailyViews_spec`: the empty store over the two
days 1970-01-01 and 1970-01-02 (0 ms to 100000000 ms). -/
theorem getDailyViews_spec_witness :
    ((0 : Int) ≤ 100000000) ∧
    TrafficDB.getDailyViews ⟨some ⟨[], 0, true⟩⟩ "site1" 0 100000000 =
      .ok ((dateSpine (epochDay ((0 : Int).fdiv 1000))
          (epochDay ((100000000 : Int).fdiv 1000))).map fun d =>
        ⟨dateString d, dailyCount [] "site1" d⟩) ∧
    ((dateSpine (epochDay ((0 : Int).fdiv 1000))
        (epochDay ((100000000 : Int).fdiv 1000))).map fun d =>
      (⟨dateString d, dailyCount [] "site1" d⟩ : DailyViews)).length =
      2 ∧
    List.Chain' (fun a b : DailyViews => a.date < b.date)
      ((dateSpine (epochDay ((0 : Int).fdiv 1000))
          (epochDay ((100000000 : Int).fdiv 1000))).map fun d =>
        ⟨dateString d, dailyCount [] "site1" d⟩) := by
  have h := getDailyViews_spec [] 0 "site1" 0 100000000 (by norm_num)
  refine ⟨by norm_num, h.1, ?_, ?_⟩
  · rw [h.2.1]
    decide
  · exact h.2.2.2 (by norm_num) (by decide)
